import Mathlib

/-!
Verification development for the SceneFlow ffmpeg-renderer filter-graph
compiler (`docker/ffmpeg-renderer/ffmpeg_utils.py`).

The Python module is shallowly embedded below:

* numeric values (durations, zoom factors, pan directions, times, volumes)
  are modelled as rationals `ℚ`; Python `int(...)` truncation is `pyInt`;
* each f-string that contributes a stage to the `-filter_complex` graph is
  modelled as a constructor of `FilterPart` carrying exactly the values the
  source interpolates, together with a `render` function producing the
  corresponding text;
* the dictionary records the source reads with `.get` and defaults are
  modelled as structures whose fields hold the post-default values
  (an absent key is identified with its documented default; fields whose
  default is another runtime value stay `Option`);
* the filesystem probe `os.path.exists` is an explicit oracle parameter
  `fsExists : String → Bool`;
* `print` logging has no effect on any return value and is dropped.
-/

/-- Python `int(q)`: truncation toward zero. -/
def pyInt (q : ℚ) : ℤ := Int.tdiv q.num (q.den : ℤ)

/-- A single-quote character, as a string (used by the renderers). -/
def sQuote : String := String.mk [Char.ofNat 39]

/-- A backslash character, as a string. -/
def bSlash : String := String.mk [Char.ofNat 92]

/-- `os.path.join a b` for the relative components used by the module. -/
def pathJoin (a b : String) : String := a ++ "/" ++ b

/-- Resolution presets (`RESOLUTIONS` table): width and height per name. -/
def RESOLUTIONS : List (String × (ℤ × ℤ)) :=
  [("720p", (1280, 720)), ("1080p", (1920, 1080)), ("4K", (3840, 2160))]

/-- `RESOLUTIONS.get(resolution, RESOLUTIONS["1080p"])`. -/
def resLookup (resolution : String) : ℤ × ℤ :=
  match RESOLUTIONS.lookup resolution with
  | some wh => wh
  | none => (1920, 1080)

/-- `SCALE_FACTOR`: images are scaled 2x for pan/zoom headroom. -/
def SCALE_FACTOR : ℤ := 2

/-- `DEFAULT_FONT` fallback font name. -/
def DEFAULT_FONT : String := "DejaVu Sans"

/-- `FONT_MAP`: UI font names to system font names. -/
def FONT_MAP : List (String × String) :=
  [("Montserrat", "Montserrat"), ("Roboto", "Roboto"),
   ("RobotoMono", "Roboto Mono"), ("Lora", "Lora")]

/-- `escape_drawtext`: escape backslash, single quote, colon and percent.
The source applies four sequential `str.replace` passes; since no
replacement text contains a character rewritten by a later pass other than
the backslashes produced by the first pass (which later passes leave
untouched), this equals the per-character rewriting below. -/
def escape_drawtext (text : String) : String :=
  String.join (text.data.map fun c =>
    if c = Char.ofNat 92 then bSlash ++ bSlash ++ bSlash ++ bSlash
    else if c = Char.ofNat 39 then bSlash ++ sQuote
    else if c = ':' then bSlash ++ ":"
    else if c = '%' then bSlash ++ "%"
    else String.mk [c])

/-- Hex digits for `%X` formatting. -/
def hexDigit (n : ℕ) : Char :=
  "0123456789ABCDEF".data.getD n '0'

/-- Uppercase hexadecimal digits of a natural number. -/
def natToHex (n : ℕ) : List Char :=
  if h : n < 16 then [hexDigit n]
  else natToHex (n / 16) ++ [hexDigit (n % 16)]
  decreasing_by exact Nat.div_lt_self (Nat.lt_of_lt_of_le (by decide) (Nat.le_of_not_lt h)) (by decide)

/-- Python `f-string` formatting `{z:02X}` for an integer. -/
def format02X (z : ℤ) : String :=
  if z < 0 then "-" ++ String.mk (natToHex z.natAbs)
  else
    let ds := natToHex z.toNat
    if ds.length < 2 then String.mk ('0' :: ds) else String.mk ds

/-- `hex_to_ffmpeg_color`: `#RRGGBB` plus opacity to `0xRRGGBBAA`. -/
def hex_to_ffmpeg_color (hexColor : String) (opacity : ℚ) : String :=
  let stripped := String.mk (hexColor.data.dropWhile (· = '#'))
  let alpha := pyInt (opacity * 255)
  "0x" ++ stripped ++ format02X alpha

/-- The named weight buckets of `get_font_file`, in insertion order. -/
def weightSuffixes : List (ℤ × String) :=
  [(100, "Thin"), (200, "ExtraLight"), (300, "Light"), (400, "Regular"),
   (500, "Medium"), (600, "SemiBold"), (700, "Bold"), (800, "ExtraBold"),
   (900, "Black")]

/-- `min(weight_suffixes.keys(), key=…)`: the first key of minimal absolute
distance to the requested weight, in insertion order. -/
def closestWeightName (fontWeight : ℤ) : String :=
  match weightSuffixes.foldl
      (fun best kv =>
        match best with
        | none => some kv
        | some b => if |kv.1 - fontWeight| < |b.1 - fontWeight| then some kv else some b)
      none with
  | some kv => kv.2
  | none => "Regular"

/-- `font_dir_map` of `get_font_file`. -/
def fontDirMap : List (String × String) :=
  [("Montserrat", "/usr/share/fonts/google/montserrat"),
   ("Roboto", "/usr/share/fonts/google/roboto"),
   ("RobotoMono", "/usr/share/fonts/google/robotomono"),
   ("Lora", "/usr/share/fonts/liberation2")]

/-- `font_name_map` of `get_font_file`. -/
def fontNameMap : List (String × String) :=
  [("Montserrat", "Montserrat"), ("Roboto", "Roboto"),
   ("RobotoMono", "RobotoMono"), ("Lora", "LiberationSerif")]

/-- `get_font_file`, with the filesystem probe as an oracle `fsExists`. -/
def get_font_file (fsExists : String → Bool) (fontFamily : String)
    (fontWeight : ℤ) : String :=
  let weightName := closestWeightName fontWeight
  let fontDir := (fontDirMap.lookup fontFamily).getD ""
  let fontBaseName := (fontNameMap.lookup fontFamily).getD fontFamily
  if fontDir = "" then DEFAULT_FONT
  else
    let fontFile := pathJoin fontDir (fontBaseName ++ "-" ++ weightName ++ ".ttf")
    let staticFontFile :=
      pathJoin (pathJoin fontDir "static") (fontBaseName ++ "-" ++ weightName ++ ".ttf")
    if fsExists staticFontFile then staticFontFile
    else if fsExists fontFile then fontFile
    else
      let regularFile := pathJoin fontDir (fontBaseName ++ "-Regular.ttf")
      let staticRegular := pathJoin (pathJoin fontDir "static") (fontBaseName ++ "-Regular.ttf")
      if fsExists staticRegular then staticRegular
      else if fsExists regularFile then regularFile
      else (FONT_MAP.lookup fontFamily).getD DEFAULT_FONT

/-! ## Data model

Records as consumed by the builders; a field documented with a `.get`
default in the source holds the post-default value here. -/

/-- The `kenBurns` sub-record of an image segment; defaults
`zoomStart=1.0`, `zoomEnd=1.05`, `panX=0`, `panY=0`. -/
structure KenBurnsSpec where
  zoomStart : ℚ := 1
  zoomEnd : ℚ := 21/20
  panX : ℚ := 0
  panY : ℚ := 0
deriving DecidableEq, Repr

/-- An image-montage segment of `build_ffmpeg_command`; `duration`
defaults to 5. -/
structure ImageSegment where
  localFile : String
  duration : ℚ := 5
  kenBurns : KenBurnsSpec := {}
deriving DecidableEq, Repr

/-- An overlay audio clip; defaults `startTime=0`, `duration=10`,
`volume=1.0`. -/
structure AudioClip where
  localFile : String
  startTime : ℚ := 0
  duration : ℚ := 10
  volume : ℚ := 1
deriving DecidableEq, Repr

/-- A video segment of `build_concat_ffmpeg_command`; `audioSource`
defaults to `"original"`, `audioVolume` defaults to the call's
`segment_audio_volume` (hence `Option`), `duration` to 5,
`voiceoverStartTime` to 0, `voiceoverDuration` to the segment duration
(hence `Option`); `voiceoverLocalFile` is absent-or-present. -/
structure VideoSegment where
  localFile : String
  audioSource : String := "original"
  audioVolume : Option ℚ := none
  duration : ℚ := 5
  voiceoverLocalFile : Option String := none
  voiceoverStartTime : ℚ := 0
  voiceoverDuration : Option ℚ := none
deriving DecidableEq, Repr

/-- A text overlay record for `build_drawtext_filter`, post-default. -/
structure TextOverlay where
  text : String := ""
  x : ℚ := 0
  y : ℚ := 0
  anchor : String := "top-left"
  fontFamily : String := "Montserrat"
  fontSize : ℚ := 48
  fontWeight : ℤ := 400
  color : String := "#FFFFFF"
  backgroundColor : Option String := none
  backgroundOpacity : ℚ := 7/10
  textShadow : Bool := false
  startTime : ℚ := 0
  duration : ℚ := -1
  fadeInMs : ℚ := 0
  fadeOutMs : ℚ := 0
  subtext : String := ""
deriving DecidableEq, Repr

/-! ## Filter stages -/

/-- The `enable=` timing predicate of a drawtext stage. -/
inductive EnableExpr where
  | between (startT endT : ℚ)
  | gte (startT : ℚ)
deriving DecidableEq, Repr

/-- One branch of the fade-alpha expression of a drawtext stage. -/
inductive AlphaPart where
  | fadeIn (startT fadeInSec : ℚ)
  | fadeOut (fadeOutStart endT fadeOutSec : ℚ)
deriving DecidableEq, Repr

/-- The full fade-alpha expression: the source's `alpha_expr`, which is
the constant string "1" (`one`), a single branch, or `min` of both. -/
inductive AlphaExprS where
  | one
  | single (p : AlphaPart)
  | minOf (p q : AlphaPart)
deriving DecidableEq, Repr

/-- The values interpolated into one `drawtext=` stage by
`build_drawtext_filter`. -/
structure DrawtextStage where
  inputLabel : String
  outputLabel : String
  fontIsFile : Bool
  fontFile : String
  text : String
  fontSize : ℚ
  fontColor : String
  xExpr : String
  yExpr : String
  enable : EnableExpr
  alpha : AlphaExprS
  boxColor : Option String
  shadow : Bool
deriving DecidableEq, Repr

/-- The values interpolated into one Ken Burns `zoompan` stage by
`build_ken_burns_filter`. -/
structure KenBurnsStage where
  segmentIndex : ℕ
  scaledW : ℤ
  scaledH : ℤ
  zoomStart : ℚ
  zoomRate : ℚ
  centerX : ℚ
  panPerFrameX : ℚ
  centerY : ℚ
  panPerFrameY : ℚ
  durationFrames : ℤ
  width : ℤ
  height : ℤ
  fps : ℤ
deriving DecidableEq, Repr

/-- One stage of the `-filter_complex` graph: each constructor mirrors one
f-string of the source that is appended to `filter_parts`. -/
inductive FilterPart where
  /-- `build_ken_burns_filter`'s scale/crop/zoompan stage. -/
  | kenBurns (k : KenBurnsStage)
  /-- video `concat=n=…:v=1:a=0` stage with its input labels and output label. -/
  | concatV (inputs : List String) (n : ℕ) (outLabel : String)
  /-- `adelay`+`volume` stage for one overlay audio clip. -/
  | audioDelay (inputIdx : ℕ) (delayMs : ℤ) (volume : ℚ) (outLabel : String)
  /-- `amix=inputs=…:duration=longest:normalize=0` stage. -/
  | amix (inputs : List String) (n : ℕ) (outLabel : String)
  /-- concat mode: `setpts`/`scale`/`pad`/`fps`/`setsar` stage for segment `i`. -/
  | scalePad (i : ℕ) (width height fps : ℤ)
  /-- concat mode: original segment audio, normalized; volume appended iff ≠ 1. -/
  | segAudioOrig (i : ℕ) (volume : ℚ)
  /-- concat mode: voiceover audio slice for segment `i`. -/
  | segAudioVoiceover (voInputIdx : ℕ) (voStart voDuration volume : ℚ) (i : ℕ)
  /-- concat mode: muted segment audio (`volume=0`). -/
  | segAudioMuted (i : ℕ)
  /-- audio `concat=n=…:v=0:a=1[src_audio]` stage. -/
  | concatA (inputs : List String) (n : ℕ)
  /-- one `drawtext=` stage. -/
  | drawtext (d : DrawtextStage)
deriving DecidableEq, Repr

/-! ## Ken Burns motion generator (`build_ken_burns_filter`) -/

/-- `build_ken_burns_filter`: computes the zoom rate, pan headroom,
per-frame pan rates and center exactly as the source, guarding
`duration_frames > 0` before each division. -/
def build_ken_burns_filter (segment_index : ℕ) (duration_frames : ℤ)
    (fps : ℤ) (zoom_start : ℚ := 1) (zoom_end : ℚ := 11/10)
    (pan_x : ℚ := 0) (pan_y : ℚ := 0)
    (width : ℤ := 1920) (height : ℤ := 1080) : KenBurnsStage :=
  let zoom_diff := zoom_end - zoom_start
  let zoom_rate : ℚ := if 0 < duration_frames then zoom_diff / (duration_frames : ℚ) else 0
  let scaled_w := width * SCALE_FACTOR
  let scaled_h := height * SCALE_FACTOR
  let pan_headroom_x : ℚ := ((scaled_w - width : ℤ) : ℚ) / 2
  let pan_headroom_y : ℚ := ((scaled_h - height : ℤ) : ℚ) / 2
  let pan_per_frame_x : ℚ :=
    if 0 < duration_frames then (pan_x * pan_headroom_x) / (duration_frames : ℚ) else 0
  let pan_per_frame_y : ℚ :=
    if 0 < duration_frames then (pan_y * pan_headroom_y) / (duration_frames : ℚ) else 0
  let center_x : ℚ := ((scaled_w - width : ℤ) : ℚ) / 2
  let center_y : ℚ := ((scaled_h - height : ℤ) : ℚ) / 2
  { segmentIndex := segment_index
    scaledW := scaled_w
    scaledH := scaled_h
    zoomStart := zoom_start
    zoomRate := zoom_rate
    centerX := center_x
    panPerFrameX := pan_per_frame_x
    centerY := center_y
    panPerFrameY := pan_per_frame_y
    durationFrames := duration_frames
    width := width
    height := height
    fps := fps }

/-- Denotation of the emitted zoom expression `'zs+rate*on'` at output
frame `n`. -/
def kenBurnsZoom (zoomStart zoomRate : ℚ) (n : ℤ) : ℚ :=
  zoomStart + zoomRate * (n : ℚ)

/-- Denotation of an emitted pan expression `'center+rate*on'` at output
frame `n`. -/
def kenBurnsPan (center rate : ℚ) (n : ℤ) : ℚ :=
  center + rate * (n : ℚ)

/-! ## Text overlay compositor (`build_drawtext_filter`) -/

/-- Python truthiness of `overlay.get('backgroundColor')`:
`None` and the empty string are falsy. -/
def optStrTruthy : Option String → Bool
  | none => false
  | some s => s != ""

/-- `build_drawtext_filter`, producing the structured stage; the x/y
position expressions, timing predicate and fade-alpha expression are
computed exactly as in the source. -/
def build_drawtext_filter (fsExists : String → Bool) (overlay : TextOverlay)
    (input_label output_label : String)
    (width : ℤ := 1920) (height : ℤ := 1080) : DrawtextStage :=
  let text := escape_drawtext overlay.text
  let x := overlay.x
  let y := overlay.y
  let start_time := overlay.startTime
  let duration := overlay.duration
  let fade_in_ms := overlay.fadeInMs
  let fade_out_ms := overlay.fadeOutMs
  let font_file := get_font_file fsExists overlay.fontFamily overlay.fontWeight
  let fontcolor := hex_to_ffmpeg_color overlay.color 1
  let xy : String × String :=
    if overlay.anchor = "top-left" then (toString x, toString y)
    else if overlay.anchor = "top-center" then (toString x ++ "-(tw/2)", toString y)
    else if overlay.anchor = "center" then (toString x ++ "-(tw/2)", toString y ++ "-(th/2)")
    else if overlay.anchor = "bottom-left" then (toString x, toString y ++ "-th")
    else if overlay.anchor = "bottom-center" then (toString x ++ "-(tw/2)", toString y ++ "-th")
    else if overlay.anchor = "bottom-right" then (toString x ++ "-tw", toString y ++ "-th")
    else (toString x, toString y)
  let enable : EnableExpr :=
    if 0 < duration then .between start_time (start_time + duration)
    else .gte start_time
  let fade_in_sec := fade_in_ms / 1000
  let fade_out_sec := fade_out_ms / 1000
  let alpha : AlphaExprS :=
    if 0 < fade_in_sec ∨ 0 < fade_out_sec then
      let alpha_parts : List AlphaPart :=
        (if 0 < fade_in_sec then [.fadeIn start_time fade_in_sec] else [])
        ++ (if 0 < fade_out_sec ∧ 0 < duration then
              [.fadeOut (start_time + duration - fade_out_sec)
                (start_time + duration) fade_out_sec]
            else [])
      match alpha_parts with
      | [p, q] => .minOf p q
      | [p] => .single p
      | _ => .one
    else .one
  let box : Option String :=
    if optStrTruthy overlay.backgroundColor then
      some (hex_to_ffmpeg_color (overlay.backgroundColor.getD "") overlay.backgroundOpacity)
    else none
  { inputLabel := input_label
    outputLabel := output_label
    fontIsFile := fsExists font_file
    fontFile := font_file
    text := text
    fontSize := overlay.fontSize
    fontColor := fontcolor
    xExpr := xy.1
    yExpr := xy.2
    enable := enable
    alpha := alpha
    boxColor := box
    shadow := overlay.textShadow }

/-- `build_text_overlay_filters`: chain the overlays, threading labels;
only the last overlay writes the final output label. -/
def build_text_overlay_filters (fsExists : String → Bool)
    (text_overlays : List TextOverlay) (input_label output_label : String)
    (width : ℤ := 1920) (height : ℤ := 1080) : List FilterPart :=
  if text_overlays = [] then []
  else
    (List.range text_overlays.length).map fun i =>
      let current_label := if i = 0 then input_label else "[text" ++ toString (i - 1) ++ "]"
      let next_label :=
        if i = text_overlays.length - 1 then output_label
        else "[text" ++ toString i ++ "]"
      .drawtext (build_drawtext_filter fsExists (text_overlays.getD i {})
        current_label next_label width height)

/-! ## Renderers: stage to `-filter_complex` text -/

/-- Render the timing predicate. -/
def renderEnable : EnableExpr → String
  | .between s e => "between(t," ++ toString s ++ "," ++ toString e ++ ")"
  | .gte s => "gte(t," ++ toString s ++ ")"

/-- Render one fade branch. -/
def renderAlphaPart : AlphaPart → String
  | .fadeIn st fis =>
      "if(lt(t," ++ toString (st + fis) ++ "),(t-" ++ toString st ++ ")/"
        ++ toString fis ++ ",1)"
  | .fadeOut foStart endT fos =>
      "if(gt(t," ++ toString foStart ++ "),(" ++ toString endT ++ "-t)/"
        ++ toString fos ++ ",1)"

/-- Render the fade-alpha expression (`alpha_expr` of the source). -/
def renderAlpha : AlphaExprS → String
  | .one => "1"
  | .single p => renderAlphaPart p
  | .minOf p q => "min(" ++ renderAlphaPart p ++ "," ++ renderAlphaPart q ++ ")"

/-- The seven base items of the drawtext `filter_parts` list. -/
def drawtextBaseParts (d : DrawtextStage) : List String :=
  [(if d.fontIsFile then "fontfile=" ++ sQuote ++ d.fontFile ++ sQuote
    else "font=" ++ sQuote ++ d.fontFile ++ sQuote),
   "text=" ++ sQuote ++ d.text ++ sQuote,
   "fontsize=" ++ toString d.fontSize,
   "fontcolor=" ++ d.fontColor,
   "x=" ++ d.xExpr,
   "y=" ++ d.yExpr,
   "enable=" ++ sQuote ++ renderEnable d.enable ++ sQuote]

/-- The box items of the drawtext `filter_parts` list, present iff a
background color was given. -/
def drawtextBoxParts (d : DrawtextStage) : List String :=
  match d.boxColor with
  | some c => ["box=1", "boxcolor=" ++ c, "boxborderw=10"]
  | none => []

/-- The shadow items of the drawtext `filter_parts` list. -/
def drawtextShadowParts (d : DrawtextStage) : List String :=
  if d.shadow then ["shadowcolor=0x00000080", "shadowx=2", "shadowy=2"] else []

/-- The `filter_parts` list of `build_drawtext_filter`: the base seven
items, then the alpha item exactly when `alpha_expr != "1"`, then the
optional box items, then the optional shadow items. -/
def drawtextParts (d : DrawtextStage) : List String :=
  drawtextBaseParts d
  ++ (if d.alpha = .one then []
      else ["alpha=" ++ sQuote ++ renderAlpha d.alpha ++ sQuote])
  ++ drawtextBoxParts d
  ++ drawtextShadowParts d

/-- Render one drawtext stage to its filter string. -/
def renderDrawtext (d : DrawtextStage) : String :=
  d.inputLabel ++ "drawtext=" ++ String.intercalate ":" (drawtextParts d)
    ++ d.outputLabel

/-- Render one Ken Burns stage to its filter string. -/
def renderKenBurns (k : KenBurnsStage) : String :=
  "[" ++ toString k.segmentIndex ++ ":v]"
    ++ "scale=" ++ toString k.scaledW ++ ":" ++ toString k.scaledH
    ++ ":force_original_aspect_ratio=increase,"
    ++ "crop=" ++ toString k.scaledW ++ ":" ++ toString k.scaledH ++ ","
    ++ "zoompan=z=" ++ sQuote ++ toString k.zoomStart ++ "+" ++ toString k.zoomRate
    ++ "*on" ++ sQuote
    ++ ":x=" ++ sQuote ++ toString k.centerX ++ "+" ++ toString k.panPerFrameX
    ++ "*on" ++ sQuote
    ++ ":y=" ++ sQuote ++ toString k.centerY ++ "+" ++ toString k.panPerFrameY
    ++ "*on" ++ sQuote
    ++ ":d=" ++ toString k.durationFrames
    ++ ":s=" ++ toString k.width ++ "x" ++ toString k.height
    ++ ":fps=" ++ toString k.fps
    ++ "[v" ++ toString k.segmentIndex ++ "]"

/-- Render any filter stage to the exact text the source builds. -/
def renderPart : FilterPart → String
  | .kenBurns k => renderKenBurns k
  | .concatV inputs n outLabel =>
      String.join inputs ++ "concat=n=" ++ toString n ++ ":v=1:a=0" ++ outLabel
  | .audioDelay inputIdx delayMs volume outLabel =>
      "[" ++ toString inputIdx ++ ":a]adelay=" ++ toString delayMs ++ "|"
        ++ toString delayMs ++ ",volume=" ++ toString volume ++ outLabel
  | .amix inputs n outLabel =>
      String.join inputs ++ "amix=inputs=" ++ toString n
        ++ ":duration=longest:normalize=0" ++ outLabel
  | .scalePad i width height fps =>
      "[" ++ toString i ++ ":v]setpts=PTS-STARTPTS,scale=" ++ toString width
        ++ ":" ++ toString height ++ ":force_original_aspect_ratio=decrease,"
        ++ "pad=" ++ toString width ++ ":" ++ toString height
        ++ ":(ow-iw)/2:(oh-ih)/2:black,"
        ++ "fps=" ++ toString fps ++ ",setsar=1[v" ++ toString i ++ "]"
  | .segAudioOrig i volume =>
      "[" ++ toString i
        ++ ":a]asetpts=PTS-STARTPTS,aformat=sample_fmts=fltp:sample_rates=48000:channel_layouts=stereo"
        ++ (if volume = 1 then "" else ",volume=" ++ toString volume)
        ++ "[seg_audio_" ++ toString i ++ "]"
  | .segAudioVoiceover voInputIdx voStart voDuration volume i =>
      "[" ++ toString voInputIdx ++ ":a]atrim=start=" ++ toString voStart
        ++ ":duration=" ++ toString voDuration
        ++ ",asetpts=PTS-STARTPTS,aformat=sample_fmts=fltp:sample_rates=48000:channel_layouts=stereo"
        ++ (if volume = 1 then "" else ",volume=" ++ toString volume)
        ++ "[vo_audio_" ++ toString i ++ "]"
  | .segAudioMuted i =>
      "[" ++ toString i
        ++ ":a]asetpts=PTS-STARTPTS,aformat=sample_fmts=fltp:sample_rates=48000:channel_layouts=stereo,volume=0"
        ++ "[seg_audio_" ++ toString i ++ "]"
  | .concatA inputs n =>
      String.join inputs ++ "concat=n=" ++ toString n ++ ":v=0:a=1[src_audio]"
  | .drawtext d => renderDrawtext d

/-! ## Image-montage compiler (`build_ffmpeg_command`) -/

/-- The Ken Burns stage built for segment `i` of `build_ffmpeg_command`:
`duration_frames = int(duration * fps)` and the `kenBurns` settings are
read with their defaults. -/
def ffmpegSegmentPart (fps width height : ℤ) (i : ℕ) (segment : ImageSegment) :
    FilterPart :=
  .kenBurns (build_ken_burns_filter i (pyInt (segment.duration * (fps : ℚ))) fps
    segment.kenBurns.zoomStart segment.kenBurns.zoomEnd
    segment.kenBurns.panX segment.kenBurns.panY width height)

/-- `video_concat_inputs`: the labels `[v0] … [v(n-1)]`. -/
def videoConcatInputs (n : ℕ) : List String :=
  (List.range n).map fun i => "[v" ++ toString i ++ "]"

/-- `audio_mix_inputs`: the labels `[a0] … [a(n-1)]`. -/
def audioMixInputs (n : ℕ) : List String :=
  (List.range n).map fun i => "[a" ++ toString i ++ "]"

/-- The `adelay`/`volume` stage for overlay audio clip `i` (shared by both
builders up to the output label). -/
def audioClipPart (audio_inputs_start : ℕ) (outLabel : String) (i : ℕ)
    (clip : AudioClip) : FilterPart :=
  .audioDelay (audio_inputs_start + i) (pyInt (clip.startTime * 1000))
    clip.volume outLabel

/-- The `filter_parts` list of `build_ffmpeg_command`: the Ken Burns
stages in segment order, the video concat stage iff more than one
segment, the per-clip audio stages, and the `amix` stage iff more than
one clip. -/
def ffmpegFilterParts (segments : List ImageSegment) (audio_clips : List AudioClip)
    (fps width height : ℤ) : List FilterPart :=
  ((segments.enum.map fun p => ffmpegSegmentPart fps width height p.1 p.2)
    ++ (if 1 < segments.length then
          [.concatV (videoConcatInputs segments.length) segments.length "[outv]"]
        else []))
  ++ (audio_clips.enum.map fun p =>
      audioClipPart segments.length ("[a" ++ toString p.1 ++ "]") p.1 p.2)
  ++ (if 1 < audio_clips.length then
        [.amix (audioMixInputs audio_clips.length) audio_clips.length "[outa]"]
      else [])

/-- `video_output` of `build_ffmpeg_command`. -/
def ffmpegVideoOutput (segments : List ImageSegment) : String :=
  if 1 < segments.length then "[outv]" else "[v0]"

/-- `audio_output` of `build_ffmpeg_command`. -/
def ffmpegAudioOutput (audio_clips : List AudioClip) : Option String :=
  if audio_clips = [] then none
  else if 1 < audio_clips.length then some "[outa]" else some "[a0]"

/-- `build_ffmpeg_command`: the full argument list. -/
def build_ffmpeg_command (segments : List ImageSegment)
    (audio_clips : List AudioClip) (output_path : String)
    (resolution : String := "1080p") (fps : ℤ := 24)
    (temp_dir : String := "/tmp") : List String :=
  let res := resLookup resolution
  let width := res.1
  let height := res.2
  let filter_parts := ffmpegFilterParts segments audio_clips fps width height
  let audio_output := ffmpegAudioOutput audio_clips
  ["ffmpeg", "-y"]
  ++ segments.flatMap (fun s =>
      ["-loop", "1", "-i", pathJoin (pathJoin temp_dir "assets") s.localFile])
  ++ audio_clips.flatMap (fun c =>
      ["-i", pathJoin (pathJoin temp_dir "assets") c.localFile])
  ++ (if filter_parts = [] then []
      else ["-filter_complex", String.intercalate ";" (filter_parts.map renderPart)])
  ++ ["-map", ffmpegVideoOutput segments]
  ++ (match audio_output with
      | some a => ["-map", a]
      | none => [])
  ++ ["-c:v", "libx264", "-preset", "medium", "-crf", "23", "-pix_fmt", "yuv420p"]
  ++ (match audio_output with
      | some _ => ["-c:a", "aac", "-b:a", "192k"]
      | none => [])
  ++ ["-t", toString ((segments.map (·.duration)).sum)]
  ++ [output_path]

/-! ## Clip-concatenation compiler (`build_concat_ffmpeg_command`) -/

/-- Python truthiness check guarding the voiceover input of a segment:
`audio_source == 'voiceover' and voiceover_file`. -/
def voQualifies (s : VideoSegment) : Bool :=
  s.audioSource == "voiceover" && optStrTruthy s.voiceoverLocalFile

/-- `voiceover_input_map`: segment index to engine input index, built in
segment order starting right after the video inputs. -/
def voiceoverInputMap (video_segments : List VideoSegment) : List (ℕ × ℕ) :=
  video_segments.enum.foldl
    (fun acc p =>
      if voQualifies p.2 then acc ++ [(p.1, video_segments.length + acc.length)]
      else acc)
    []

/-- The per-segment audio stage of the concat builder: `original` uses the
segment's own audio, a qualifying `voiceover` uses a trimmed slice of the
voiceover input, anything else is muted with `volume=0`. -/
def segAudioPart (video_segments : List VideoSegment) (segment_audio_volume : ℚ)
    (i : ℕ) (s : VideoSegment) : FilterPart :=
  let seg_audio_volume := s.audioVolume.getD segment_audio_volume
  if s.audioSource == "original" then .segAudioOrig i seg_audio_volume
  else
    match (if s.audioSource == "voiceover" then
            (voiceoverInputMap video_segments).lookup i
           else none) with
    | some voIdx =>
        .segAudioVoiceover voIdx s.voiceoverStartTime
          (s.voiceoverDuration.getD s.duration) seg_audio_volume i
    | none => .segAudioMuted i

/-- The label of the per-segment audio stream appended to
`segment_audio_streams` for segment `i`. -/
def segAudioLabel (video_segments : List VideoSegment) (i : ℕ)
    (s : VideoSegment) : String :=
  if s.audioSource == "original" then "[seg_audio_" ++ toString i ++ "]"
  else
    match (if s.audioSource == "voiceover" then
            (voiceoverInputMap video_segments).lookup i
           else none) with
    | some _ => "[vo_audio_" ++ toString i ++ "]"
    | none => "[seg_audio_" ++ toString i ++ "]"

/-- `segment_audio_streams`: one `(label, duration)` entry per video
segment, in order. -/
def segmentAudioStreams (video_segments : List VideoSegment)
    (segment_audio_volume : ℚ) : List (String × ℚ) :=
  video_segments.enum.map fun p =>
    (segAudioLabel video_segments p.1 p.2, p.2.duration)

/-- The per-segment section of the concat `filter_parts`: for each
segment its scale/pad stage then its audio stage, in segment order. -/
def concatPerSegParts (video_segments : List VideoSegment)
    (segment_audio_volume : ℚ) (width height fps : ℤ) : List FilterPart :=
  video_segments.enum.flatMap fun p =>
    [.scalePad p.1 width height fps,
     segAudioPart video_segments segment_audio_volume p.1 p.2]

/-- `src_audio_output`: label of the aggregated segment-audio stream. -/
def srcAudioOutput (video_segments : List VideoSegment)
    (segment_audio_volume : ℚ) : Option String :=
  let streams := segmentAudioStreams video_segments segment_audio_volume
  if streams = [] then none
  else if 1 < streams.length then some "[src_audio]"
  else some ((streams.headD ("", 0)).1)

/-- `all_audio_inputs`: the aggregated segment-audio stream (if any)
followed by one label per overlay clip. -/
def concatAudioInputs (video_segments : List VideoSegment)
    (audio_clips : List AudioClip) (segment_audio_volume : ℚ) : List String :=
  (match srcAudioOutput video_segments segment_audio_volume with
   | some l => [l]
   | none => [])
  ++ (List.range audio_clips.length).map (fun i => "[overlay_a" ++ toString i ++ "]")

/-- `audio_output` of the concat builder: the mix label when several
streams exist, the single stream when exactly one does, none otherwise. -/
def concatAudioOutput (video_segments : List VideoSegment)
    (audio_clips : List AudioClip) (segment_audio_volume : ℚ) : Option String :=
  let ins := concatAudioInputs video_segments audio_clips segment_audio_volume
  if 1 < ins.length then some "[outa]"
  else match ins with
       | [a] => some a
       | _ => none

/-- `video_output` of the concat builder, after text overlays. -/
def concatVideoOutput (video_segments : List VideoSegment)
    (text_overlays : Option (List TextOverlay)) : String :=
  let base := if 1 < video_segments.length then "[outv]" else "[v0]"
  if text_overlays.getD [] = [] then base else "[finalv]"

/-- The `filter_parts` list of `build_concat_ffmpeg_command`, in
construction order: per-segment stages, video concat (iff &gt; 1 segment),
text overlays, segment-audio concat (iff &gt; 1 stream), overlay-clip
stages, and the final `amix` (iff &gt; 1 audio input). -/
def concatFilterParts (fsExists : String → Bool)
    (video_segments : List VideoSegment) (audio_clips : List AudioClip)
    (segment_audio_volume : ℚ) (text_overlays : Option (List TextOverlay))
    (width height fps : ℤ) : List FilterPart :=
  concatPerSegParts video_segments segment_audio_volume width height fps
  ++ (if 1 < video_segments.length then
        [.concatV (videoConcatInputs video_segments.length)
          video_segments.length "[outv]"]
      else [])
  ++ (if text_overlays.getD [] = [] then []
      else build_text_overlay_filters fsExists (text_overlays.getD [])
        (if 1 < video_segments.length then "[outv]" else "[v0]") "[finalv]"
        width height)
  ++ (if 1 < (segmentAudioStreams video_segments segment_audio_volume).length then
        [.concatA ((segmentAudioStreams video_segments segment_audio_volume).map (·.1))
          (segmentAudioStreams video_segments segment_audio_volume).length]
      else [])
  ++ audio_clips.enum.map (fun p =>
      audioClipPart (video_segments.length + (voiceoverInputMap video_segments).length)
        ("[overlay_a" ++ toString p.1 ++ "]") p.1 p.2)
  ++ (if 1 < (concatAudioInputs video_segments audio_clips segment_audio_volume).length then
        [.amix (concatAudioInputs video_segments audio_clips segment_audio_volume)
          (concatAudioInputs video_segments audio_clips segment_audio_volume).length
          "[outa]"]
      else [])

/-- `build_concat_ffmpeg_command`: the full argument list. The
`include_segment_audio` flag is accepted (as in the source signature). -/
def build_concat_ffmpeg_command (fsExists : String → Bool)
    (video_segments : List VideoSegment) (audio_clips : List AudioClip)
    (output_path : String) (resolution : String := "1080p") (fps : ℤ := 24)
    (temp_dir : String := "/tmp") (includeSegmentAudio : Bool := true)
    (segment_audio_volume : ℚ := 1)
    (text_overlays : Option (List TextOverlay) := none) : List String :=
  let res := resLookup resolution
  let width := res.1
  let height := res.2
  let filter_parts := concatFilterParts fsExists video_segments audio_clips
    segment_audio_volume text_overlays width height fps
  let audio_output := concatAudioOutput video_segments audio_clips segment_audio_volume
  ["ffmpeg", "-y"]
  ++ video_segments.flatMap (fun s =>
      ["-i", pathJoin (pathJoin temp_dir "assets") s.localFile])
  ++ (video_segments.filter voQualifies).flatMap (fun s =>
      ["-i", pathJoin (pathJoin temp_dir "assets") (s.voiceoverLocalFile.getD "")])
  ++ audio_clips.flatMap (fun c =>
      ["-i", pathJoin (pathJoin temp_dir "assets") c.localFile])
  ++ (if filter_parts = [] then []
      else ["-filter_complex", String.intercalate ";" (filter_parts.map renderPart)])
  ++ ["-map", concatVideoOutput video_segments text_overlays]
  ++ (match audio_output with
      | some a => ["-map", a]
      | none => [])
  ++ ["-c:v", "libx264", "-preset", "medium", "-crf", "23", "-pix_fmt", "yuv420p"]
  ++ (match audio_output with
      | some _ => ["-c:a", "aac", "-b:a", "192k"]
      | none => [])
  ++ [output_path]

/-! ## Denotations of the emitted timing and fade expressions -/

/-- Truth of the emitted `enable` predicate at time `t`:
`between(t,a,b)` is inclusive on both ends, `gte(t,a)` is `a ≤ t`. -/
def enableSem : EnableExpr → ℚ → Prop
  | .between s e, t => s ≤ t ∧ t ≤ e
  | .gte s, t => s ≤ t

instance (e : EnableExpr) (t : ℚ) : Decidable (enableSem e t) := by
  cases e <;> simp [enableSem] <;> infer_instance

/-- Value of one emitted fade branch at time `t` (the denotation of the
`if(lt(…))` / `if(gt(…))` texts). -/
def alphaPartSem : AlphaPart → ℚ → ℚ
  | .fadeIn st fis, t => if t < st + fis then (t - st) / fis else 1
  | .fadeOut foStart endT fos, t => if foStart < t then (endT - t) / fos else 1

/-- Value of the emitted fade-alpha expression at time `t`. -/
def alphaSem : AlphaExprS → ℚ → ℚ
  | .one, _ => 1
  | .single p, t => alphaPartSem p t
  | .minOf p q, t => min (alphaPartSem p t) (alphaPartSem q t)

/-! ## Stage predicates and command sections -/

/-- Is a stage a Ken Burns motion stage? -/
def isKenBurnsPart : FilterPart → Bool
  | .kenBurns _ => true
  | _ => false

/-- Is a stage a video concatenation stage? -/
def isConcatVPart : FilterPart → Bool
  | .concatV _ _ _ => true
  | _ => false

/-- Is a stage an `amix` stage? -/
def isAmixPart : FilterPart → Bool
  | .amix _ _ _ => true
  | _ => false

/-- The segment index of a Ken Burns stage (0 for other stages). -/
def kbSegIndex : FilterPart → ℕ
  | .kenBurns k => k.segmentIndex
  | _ => 0

/-- The input-file section of the montage command: program name, `-y`,
looped image inputs, then audio inputs. -/
def ffmpegInputArgs (segments : List ImageSegment) (audio_clips : List AudioClip)
    (temp_dir : String) : List String :=
  ["ffmpeg", "-y"]
  ++ segments.flatMap (fun s =>
      ["-loop", "1", "-i", pathJoin (pathJoin temp_dir "assets") s.localFile])
  ++ audio_clips.flatMap (fun c =>
      ["-i", pathJoin (pathJoin temp_dir "assets") c.localFile])

/-- The `-filter_complex` section of the montage command. -/
def ffmpegGraphArgs (segments : List ImageSegment) (audio_clips : List AudioClip)
    (fps width height : ℤ) : List String :=
  if ffmpegFilterParts segments audio_clips fps width height = [] then []
  else ["-filter_complex",
    String.intercalate ";"
      ((ffmpegFilterParts segments audio_clips fps width height).map renderPart)]

/-- The fixed video codec settings shared by both builders. -/
def videoCodecArgs : List String :=
  ["-c:v", "libx264", "-preset", "medium", "-crf", "23", "-pix_fmt", "yuv420p"]

/-- The audio `-map` section: present iff an audio output exists. -/
def audioMapArgs : Option String → List String
  | some a => ["-map", a]
  | none => []

/-- The audio codec section: present iff an audio output exists. -/
def audioCodecArgs : Option String → List String
  | some _ => ["-c:a", "aac", "-b:a", "192k"]
  | none => []

/-- The input-file section of the concat command: program name, `-y`,
video inputs, voiceover inputs of qualifying segments, audio inputs. -/
def concatInputArgs (video_segments : List VideoSegment)
    (audio_clips : List AudioClip) (temp_dir : String) : List String :=
  ["ffmpeg", "-y"]
  ++ video_segments.flatMap (fun s =>
      ["-i", pathJoin (pathJoin temp_dir "assets") s.localFile])
  ++ (video_segments.filter voQualifies).flatMap (fun s =>
      ["-i", pathJoin (pathJoin temp_dir "assets") (s.voiceoverLocalFile.getD "")])
  ++ audio_clips.flatMap (fun c =>
      ["-i", pathJoin (pathJoin temp_dir "assets") c.localFile])

/-- The `-filter_complex` section of the concat command. -/
def concatGraphArgs (fsExists : String → Bool)
    (video_segments : List VideoSegment) (audio_clips : List AudioClip)
    (segment_audio_volume : ℚ) (text_overlays : Option (List TextOverlay))
    (width height fps : ℤ) : List String :=
  if concatFilterParts fsExists video_segments audio_clips segment_audio_volume
      text_overlays width height fps = [] then []
  else ["-filter_complex",
    String.intercalate ";"
      ((concatFilterParts fsExists video_segments audio_clips segment_audio_volume
        text_overlays width height fps).map renderPart)]

/-! ## Claim theorems -/

/-- **C5.** For every segment with frame count `D > 0`, the zoom
expression emitted by `build_ken_burns_filter` denotes the linear
function `zoomStart + n·(zoomEnd − zoomStart)/D` of the frame number `n`:
it equals `zoomStart` at frame 0 and `zoomEnd` at frame `D` (exactly, in
the rational model). -/
theorem ken_burns_zoom_linear (i : ℕ) (D fps : ℤ) (zs ze px py : ℚ)
    (w h : ℤ) (hD : 0 < D) :
    (build_ken_burns_filter i D fps zs ze px py w h).zoomRate = (ze - zs) / (D : ℚ)
    ∧ kenBurnsZoom zs ((build_ken_burns_filter i D fps zs ze px py w h).zoomRate) 0 = zs
    ∧ kenBurnsZoom zs ((build_ken_burns_filter i D fps zs ze px py w h).zoomRate) D = ze
    ∧ ∀ n : ℤ, kenBurnsZoom zs ((build_ken_burns_filter i D fps zs ze px py w h).zoomRate) n
        = zs + (n : ℚ) * ((ze - zs) / (D : ℚ)) := by
  have hD0 : (D : ℚ) ≠ 0 := Int.cast_ne_zero.mpr hD.ne'
  have hrate : (build_ken_burns_filter i D fps zs ze px py w h).zoomRate
      = (ze - zs) / (D : ℚ) := by
    simp [build_ken_burns_filter, hD]
  refine ⟨hrate, ?_, ?_, ?_⟩ <;> rw [hrate]
  · simp [kenBurnsZoom]
  · field_simp [kenBurnsZoom]
  · intro n
    simp [kenBurnsZoom]
    ring

/-- Witness for `ken_burns_zoom_linear` at the spec's scenario A segment
(`D = 120`, `zoomStart = 1`, `zoomEnd = 1.1`): the zoom reaches `1.1` at
frame 120. -/
theorem ken_burns_zoom_linear_witness :
    kenBurnsZoom 1 ((build_ken_burns_filter 0 120 24 1 (11/10) 0 0 1920 1080).zoomRate) 120
      = 11/10 :=
  (ken_burns_zoom_linear 0 120 24 1 (11/10) 0 0 1920 1080 (by decide)).2.2.1

/-- **C6.** With `duration_frames = 0`, `build_ken_burns_filter` is a
total function (no division fault): for all zoom/pan arguments the guards
define the zoom rate and both per-frame pan rates as 0, so the emitted
motion expressions are constant. -/
theorem ken_burns_zero_frames_stable (i : ℕ) (fps : ℤ) (zs ze px py : ℚ)
    (w h : ℤ) :
    (build_ken_burns_filter i 0 fps zs ze px py w h).zoomRate = 0
    ∧ (build_ken_burns_filter i 0 fps zs ze px py w h).panPerFrameX = 0
    ∧ (build_ken_burns_filter i 0 fps zs ze px py w h).panPerFrameY = 0
    ∧ (∀ n : ℤ, kenBurnsZoom zs ((build_ken_burns_filter i 0 fps zs ze px py w h).zoomRate) n = zs)
    ∧ (∀ n : ℤ,
        kenBurnsPan ((build_ken_burns_filter i 0 fps zs ze px py w h).centerX)
          ((build_ken_burns_filter i 0 fps zs ze px py w h).panPerFrameX) n
        = (build_ken_burns_filter i 0 fps zs ze px py w h).centerX) := by
  simp [build_ken_burns_filter, kenBurnsZoom, kenBurnsPan]

/-- **C7.** For `panX, panY ∈ [−1,1]` and frame count `D > 0`, the pan
expressions denote `x(n) = centerX + n·(panX·headroomX)/D` (and
analogously for `y`) with headroom `(S−1)/2` of the output dimension for
`S = 2`; at frame 0 the position is exactly the center of the scaled
image, regardless of the pan magnitude. -/
theorem ken_burns_pan_linear (i : ℕ) (D fps : ℤ) (zs ze px py : ℚ)
    (w h : ℤ) (hD : 0 < D) (hpx0 : -1 ≤ px) (hpx1 : px ≤ 1)
    (hpy0 : -1 ≤ py) (hpy1 : py ≤ 1) :
    (build_ken_burns_filter i D fps zs ze px py w h).centerX
        = ((w * SCALE_FACTOR - w : ℤ) : ℚ) / 2
    ∧ kenBurnsPan ((build_ken_burns_filter i D fps zs ze px py w h).centerX)
        ((build_ken_burns_filter i D fps zs ze px py w h).panPerFrameX) 0
      = (build_ken_burns_filter i D fps zs ze px py w h).centerX
    ∧ kenBurnsPan ((build_ken_burns_filter i D fps zs ze px py w h).centerY)
        ((build_ken_burns_filter i D fps zs ze px py w h).panPerFrameY) 0
      = (build_ken_burns_filter i D fps zs ze px py w h).centerY
    ∧ (∀ n : ℤ,
        kenBurnsPan ((build_ken_burns_filter i D fps zs ze px py w h).centerX)
          ((build_ken_burns_filter i D fps zs ze px py w h).panPerFrameX) n
        = (build_ken_burns_filter i D fps zs ze px py w h).centerX
          + (n : ℚ) * (px * ((((SCALE_FACTOR : ℤ) : ℚ) - 1) / 2 * (w : ℚ))) / (D : ℚ))
    ∧ (∀ n : ℤ,
        kenBurnsPan ((build_ken_burns_filter i D fps zs ze px py w h).centerY)
          ((build_ken_burns_filter i D fps zs ze px py w h).panPerFrameY) n
        = (build_ken_burns_filter i D fps zs ze px py w h).centerY
          + (n : ℚ) * (py * ((((SCALE_FACTOR : ℤ) : ℚ) - 1) / 2 * (h : ℚ))) / (D : ℚ)) := by
  have hD0 : (D : ℚ) ≠ 0 := Int.cast_ne_zero.mpr hD.ne'
  refine ⟨?_, ?_, ?_, ?_, ?_⟩
  · simp [build_ken_burns_filter]
  · simp [build_ken_burns_filter, kenBurnsPan]
  · simp [build_ken_burns_filter, kenBurnsPan]
  · intro n
    simp [build_ken_burns_filter, kenBurnsPan, hD, SCALE_FACTOR]
    push_cast
    ring
  · intro n
    simp [build_ken_burns_filter, kenBurnsPan, hD, SCALE_FACTOR]
    push_cast
    ring

/-- Witness for `ken_burns_pan_linear` at `D = 120`, `panX = 1/2`,
`panY = -1/2`: the pan position at frame 0 is exactly the center. -/
theorem ken_burns_pan_linear_witness :
    kenBurnsPan ((build_ken_burns_filter 0 120 24 1 (11/10) (1/2) (-1/2) 1920 1080).centerX)
      ((build_ken_burns_filter 0 120 24 1 (11/10) (1/2) (-1/2) 1920 1080).panPerFrameX) 0
    = (build_ken_burns_filter 0 120 24 1 (11/10) (1/2) (-1/2) 1920 1080).centerX :=
  (ken_burns_pan_linear 0 120 24 1 (11/10) (1/2) (-1/2) 1920 1080 (by decide)
    (by norm_num) (by norm_num) (by norm_num) (by norm_num)).2.1


/-- **C2.** Compilation is deterministic: for fixed arguments (and, for
the concat builder, a fixed filesystem oracle) two invocations of
`build_ffmpeg_command` or `build_concat_ffmpeg_command` return identical
argument lists; the embedded compilers consult no clock and no source of
randomness, so the result is a function of the inputs alone. -/
theorem compile_deterministic (segments : List ImageSegment)
    (audio_clips : List AudioClip) (output_path resolution : String)
    (fps : ℤ) (temp_dir : String) (fsExists : String → Bool)
    (video_segments : List VideoSegment) (clips2 : List AudioClip)
    (out2 res2 : String) (fps2 : ℤ) (td2 : String) (inc : Bool)
    (sav : ℚ) (tov : Option (List TextOverlay)) :
    build_ffmpeg_command segments audio_clips output_path resolution fps temp_dir
      = build_ffmpeg_command segments audio_clips output_path resolution fps temp_dir
    ∧ build_concat_ffmpeg_command fsExists video_segments clips2 out2 res2 fps2 td2 inc sav tov
      = build_concat_ffmpeg_command fsExists video_segments clips2 out2 res2 fps2 td2 inc sav tov :=
  ⟨rfl, rfl⟩

/-- **C8.** The visibility predicate emitted by `build_drawtext_filter`
is `between(t, startTime, startTime+duration)` — true exactly on the
closed interval — when `duration > 0`, and `gte(t, startTime)` — true
for all `t ≥ startTime` — when `duration ≤ 0`. -/
theorem drawtext_enable_window (fsExists : String → Bool)
    (overlay : TextOverlay) (il ol : String) (w h : ℤ) :
    (build_drawtext_filter fsExists overlay il ol w h).enable
      = (if 0 < overlay.duration then
           .between overlay.startTime (overlay.startTime + overlay.duration)
         else .gte overlay.startTime)
    ∧ ∀ t : ℚ,
        enableSem ((build_drawtext_filter fsExists overlay il ol w h).enable) t
        ↔ (if 0 < overlay.duration then
             overlay.startTime ≤ t ∧ t ≤ overlay.startTime + overlay.duration
           else overlay.startTime ≤ t) := by
  have he : (build_drawtext_filter fsExists overlay il ol w h).enable
      = (if 0 < overlay.duration then
           .between overlay.startTime (overlay.startTime + overlay.duration)
         else .gte overlay.startTime) := by
    simp only [build_drawtext_filter]
  refine ⟨he, fun t => ?_⟩
  rw [he]
  by_cases hd : 0 < overlay.duration <;> simp [hd, enableSem]

/-- **C10.** The `include_segment_audio` flag of
`build_concat_ffmpeg_command` has no effect on the output, and one
per-segment audio stream is emitted per video segment: a segment that is
neither `original` nor a qualifying `voiceover` contributes a muted
`volume=0` stream rather than being omitted. -/
theorem include_segment_audio_no_effect (fsExists : String → Bool)
    (video_segments : List VideoSegment) (audio_clips : List AudioClip)
    (output_path resolution : String) (fps : ℤ) (temp_dir : String)
    (segment_audio_volume : ℚ) (text_overlays : Option (List TextOverlay)) :
    build_concat_ffmpeg_command fsExists video_segments audio_clips output_path
        resolution fps temp_dir true segment_audio_volume text_overlays
      = build_concat_ffmpeg_command fsExists video_segments audio_clips output_path
          resolution fps temp_dir false segment_audio_volume text_overlays
    ∧ (segmentAudioStreams video_segments segment_audio_volume).length
        = video_segments.length
    ∧ (∀ (i : ℕ) (s : VideoSegment), s.audioSource ≠ "original" →
        (voiceoverInputMap video_segments).lookup i = none →
        segAudioPart video_segments segment_audio_volume i s = .segAudioMuted i) := by
  refine ⟨rfl, ?_, ?_⟩
  · simp [segmentAudioStreams]
  · intro i s hsrc hlk
    simp only [segAudioPart]
    rw [if_neg (by simpa using hsrc)]
    by_cases hv : s.audioSource == "voiceover" <;> simp [hv, hlk]

/-- Witness for `include_segment_audio_no_effect`: a segment whose
`audioSource` is `"muted"` contributes the `volume=0` stream. -/
theorem include_segment_audio_no_effect_witness :
    segAudioPart [{ localFile := "a.mp4", audioSource := "muted" }] 1 0
        { localFile := "a.mp4", audioSource := "muted" }
      = .segAudioMuted 0 :=
  (include_segment_audio_no_effect (fun _ => false)
      [{ localFile := "a.mp4", audioSource := "muted" }] [] "out.mp4" "1080p" 24
      "/tmp" 1 none).2.2 0
    { localFile := "a.mp4", audioSource := "muted" } (by decide) (by decide)

/-- **C9.** The fade-alpha expression of `build_drawtext_filter` contains
the fade-in ramp (over `[startTime, startTime+fadeInSec]`) iff
`fadeInMs > 0`, contains the fade-out ramp (over `[end−fadeOutSec, end]`)
iff `fadeOutMs > 0` and `duration > 0`, is their `min` exactly when both
are present, and when neither applies the alpha item is omitted from the
emitted `filter_parts` entirely; each ramp denotes the linear function
clamped to 1 outside its window. -/
theorem drawtext_alpha_fades (fsExists : String → Bool)
    (overlay : TextOverlay) (il ol : String) (w h : ℤ) :
    ((build_drawtext_filter fsExists overlay il ol w h).alpha
      = if 0 < overlay.fadeInMs then
          (if 0 < overlay.fadeOutMs ∧ 0 < overlay.duration then
            .minOf (.fadeIn overlay.startTime (overlay.fadeInMs / 1000))
              (.fadeOut (overlay.startTime + overlay.duration - overlay.fadeOutMs / 1000)
                (overlay.startTime + overlay.duration) (overlay.fadeOutMs / 1000))
          else .single (.fadeIn overlay.startTime (overlay.fadeInMs / 1000)))
        else if 0 < overlay.fadeOutMs ∧ 0 < overlay.duration then
          .single (.fadeOut (overlay.startTime + overlay.duration - overlay.fadeOutMs / 1000)
            (overlay.startTime + overlay.duration) (overlay.fadeOutMs / 1000))
        else .one)
    ∧ (¬ 0 < overlay.fadeInMs → ¬ (0 < overlay.fadeOutMs ∧ 0 < overlay.duration) →
        drawtextParts (build_drawtext_filter fsExists overlay il ol w h)
          = drawtextBaseParts (build_drawtext_filter fsExists overlay il ol w h)
            ++ drawtextBoxParts (build_drawtext_filter fsExists overlay il ol w h)
            ++ drawtextShadowParts (build_drawtext_filter fsExists overlay il ol w h))
    ∧ ((build_drawtext_filter fsExists overlay il ol w h).alpha ≠ .one →
        drawtextParts (build_drawtext_filter fsExists overlay il ol w h)
          = drawtextBaseParts (build_drawtext_filter fsExists overlay il ol w h)
            ++ ["alpha=" ++ sQuote
                ++ renderAlpha ((build_drawtext_filter fsExists overlay il ol w h).alpha)
                ++ sQuote]
            ++ drawtextBoxParts (build_drawtext_filter fsExists overlay il ol w h)
            ++ drawtextShadowParts (build_drawtext_filter fsExists overlay il ol w h))
    ∧ (∀ st fis t : ℚ, t < st + fis → alphaPartSem (.fadeIn st fis) t = (t - st) / fis)
    ∧ (∀ st fis t : ℚ, st + fis ≤ t → alphaPartSem (.fadeIn st fis) t = 1)
    ∧ (∀ fo e fos t : ℚ, fo < t → alphaPartSem (.fadeOut fo e fos) t = (e - t) / fos)
    ∧ (∀ fo e fos t : ℚ, t ≤ fo → alphaPartSem (.fadeOut fo e fos) t = 1) := by
  have e1 : (0 < overlay.fadeInMs / 1000) ↔ (0 < overlay.fadeInMs) :=
    ⟨fun hh => by linarith, fun hh => by linarith⟩
  have e2 : (0 < overlay.fadeOutMs / 1000) ↔ (0 < overlay.fadeOutMs) :=
    ⟨fun hh => by linarith, fun hh => by linarith⟩
  have halpha : (build_drawtext_filter fsExists overlay il ol w h).alpha
      = if 0 < overlay.fadeInMs then
          (if 0 < overlay.fadeOutMs ∧ 0 < overlay.duration then
            .minOf (.fadeIn overlay.startTime (overlay.fadeInMs / 1000))
              (.fadeOut (overlay.startTime + overlay.duration - overlay.fadeOutMs / 1000)
                (overlay.startTime + overlay.duration) (overlay.fadeOutMs / 1000))
          else .single (.fadeIn overlay.startTime (overlay.fadeInMs / 1000)))
        else if 0 < overlay.fadeOutMs ∧ 0 < overlay.duration then
          .single (.fadeOut (overlay.startTime + overlay.duration - overlay.fadeOutMs / 1000)
            (overlay.startTime + overlay.duration) (overlay.fadeOutMs / 1000))
        else .one := by
    by_cases h1 : 0 < overlay.fadeInMs <;> by_cases h2 : 0 < overlay.fadeOutMs <;>
      by_cases h3 : 0 < overlay.duration <;>
      simp [build_drawtext_filter, e1, e2, h1, h2, h3]
  refine ⟨halpha, ?_, ?_, ?_, ?_, ?_, ?_⟩
  · intro n1 n2
    have hone : (build_drawtext_filter fsExists overlay il ol w h).alpha = .one := by
      rw [halpha, if_neg n1, if_neg n2]
    simp [drawtextParts, hone]
  · intro hne
    simp [drawtextParts, if_neg hne]
  · intro st fis t ht
    simp [alphaPartSem, ht]
  · intro st fis t ht
    simp [alphaPartSem, not_lt.mpr ht]
  · intro fo e fos t ht
    simp [alphaPartSem, ht]
  · intro fo e fos t ht
    simp [alphaPartSem, not_lt.mpr ht]

/-- Witness for `drawtext_alpha_fades`: with `startTime = 2`,
`duration = 3`, `fadeInMs = fadeOutMs = 500`, both ramps are present and
combined with `min`. -/
theorem drawtext_alpha_fades_witness :
    (build_drawtext_filter (fun _ => false)
        { startTime := 2, duration := 3, fadeInMs := 500, fadeOutMs := 500 }
        "[outv]" "[finalv]" 1920 1080).alpha
      = .minOf (.fadeIn 2 (500 / 1000))
          (.fadeOut (2 + 3 - 500 / 1000) (2 + 3) (500 / 1000)) := by
  have h := (drawtext_alpha_fades (fun _ => false)
    { startTime := 2, duration := 3, fadeInMs := 500, fadeOutMs := 500 }
    "[outv]" "[finalv]" 1920 1080).1
  rw [h]
  norm_num



/-- Counting over a mapped list all of whose images satisfy `p`. -/
theorem countP_map_eq_length {α β : Type} (p : β → Bool) (f : α → β)
    (l : List α) (h : ∀ a, p (f a) = true) : (l.map f).countP p = l.length := by
  rw [List.countP_map]
  exact List.countP_eq_length.mpr fun a _ => h a

/-- Counting over a mapped list none of whose images satisfy `p`. -/
theorem countP_map_eq_zero {α β : Type} (p : β → Bool) (f : α → β)
    (l : List α) (h : ∀ a, p (f a) = false) : (l.map f).countP p = 0 := by
  rw [List.countP_map]
  refine List.countP_eq_zero.mpr fun a _ => ?_
  simp [Function.comp, h a]

/-- Filtering a mapped list none of whose images satisfy `p`. -/
theorem filter_map_eq_nil {α β : Type} (p : β → Bool) (f : α → β)
    (l : List α) (h : ∀ a, p (f a) = false) : (l.map f).filter p = [] := by
  refine List.filter_eq_nil_iff.mpr fun a ha => ?_
  obtain ⟨b, _, rfl⟩ := List.mem_map.mp ha
  simp [h b]

/-- Filtering a mapped list all of whose images satisfy `p`. -/
theorem filter_map_eq_self {α β : Type} (p : β → Bool) (f : α → β)
    (l : List α) (h : ∀ a, p (f a) = true) : (l.map f).filter p = l.map f := by
  refine List.filter_eq_self.mpr fun a ha => ?_
  obtain ⟨b, _, rfl⟩ := List.mem_map.mp ha
  simp [h b]

/-- **C4.** For an image-montage job with `N ≥ 1` segments the graph
contains exactly `N` Ken Burns motion stages, whose segment indices (and
hence `[v<i>]` output labels) are exactly `0, …, N−1` with no repeats;
exactly one concatenation stage iff `N > 1`; the command maps the one
final video label (`[outv]` for `N > 1`, else `[v0]`); and it forces the
output duration with `-t` equal to the sum of the declared segment
durations. -/
theorem montage_graph_shape (segments : List ImageSegment)
    (audio_clips : List AudioClip) (output_path resolution : String)
    (fps : ℤ) (temp_dir : String) (hN : 1 ≤ segments.length) :
    (∀ width height : ℤ,
      (ffmpegFilterParts segments audio_clips fps width height).countP isKenBurnsPart
        = segments.length)
    ∧ (∀ width height : ℤ,
      ((ffmpegFilterParts segments audio_clips fps width height).filter
          isKenBurnsPart).map kbSegIndex
        = List.range segments.length)
    ∧ (∀ width height : ℤ,
      (ffmpegFilterParts segments audio_clips fps width height).countP isConcatVPart
        = if 1 < segments.length then 1 else 0)
    ∧ ffmpegVideoOutput segments = (if 1 < segments.length then "[outv]" else "[v0]")
    ∧ build_ffmpeg_command segments audio_clips output_path resolution fps temp_dir
        = ffmpegInputArgs segments audio_clips temp_dir
          ++ ffmpegGraphArgs segments audio_clips fps (resLookup resolution).1
              (resLookup resolution).2
          ++ ["-map", ffmpegVideoOutput segments]
          ++ audioMapArgs (ffmpegAudioOutput audio_clips)
          ++ videoCodecArgs
          ++ audioCodecArgs (ffmpegAudioOutput audio_clips)
          ++ ["-t", toString ((segments.map (·.duration)).sum)]
          ++ [output_path] := by
  refine ⟨?_, ?_, ?_, rfl, ?_⟩
  · intro width height
    have hA : (segments.enum.map fun p =>
        ffmpegSegmentPart fps width height p.1 p.2).countP isKenBurnsPart
        = segments.length :=
      (countP_map_eq_length _ _ _ fun a => rfl).trans List.enum_length
    have hB : (audio_clips.enum.map fun p =>
        audioClipPart segments.length ("[a" ++ toString p.1 ++ "]") p.1 p.2).countP
          isKenBurnsPart = 0 :=
      countP_map_eq_zero _ _ _ fun a => rfl
    simp only [ffmpegFilterParts, List.countP_append, hA, hB]
    by_cases h1 : 1 < segments.length <;> by_cases h2 : 1 < audio_clips.length <;>
      simp [h1, h2, isKenBurnsPart, List.countP_cons]
  · intro width height
    have hfA : (segments.enum.map fun p =>
        ffmpegSegmentPart fps width height p.1 p.2).filter isKenBurnsPart
        = segments.enum.map fun p => ffmpegSegmentPart fps width height p.1 p.2 :=
      filter_map_eq_self _ _ _ fun a => rfl
    have hfB : (audio_clips.enum.map fun p =>
        audioClipPart segments.length ("[a" ++ toString p.1 ++ "]") p.1 p.2).filter
          isKenBurnsPart = [] :=
      filter_map_eq_nil _ _ _ fun a => rfl
    have hidx : ((segments.enum.map fun p =>
        ffmpegSegmentPart fps width height p.1 p.2).map kbSegIndex)
        = List.range segments.length := by
      rw [List.map_map]
      have hcomp : (kbSegIndex ∘ fun p : ℕ × ImageSegment =>
          ffmpegSegmentPart fps width height p.1 p.2) = Prod.fst := funext fun p => rfl
      rw [hcomp, List.enum_map_fst]
    simp only [ffmpegFilterParts, List.filter_append, hfA, hfB]
    by_cases h1 : 1 < segments.length <;> by_cases h2 : 1 < audio_clips.length <;>
      simp [h1, h2, isKenBurnsPart, hidx]
  · intro width height
    have hA : (segments.enum.map fun p =>
        ffmpegSegmentPart fps width height p.1 p.2).countP isConcatVPart = 0 :=
      countP_map_eq_zero _ _ _ fun a => rfl
    have hB : (audio_clips.enum.map fun p =>
        audioClipPart segments.length ("[a" ++ toString p.1 ++ "]") p.1 p.2).countP
          isConcatVPart = 0 :=
      countP_map_eq_zero _ _ _ fun a => rfl
    simp only [ffmpegFilterParts, List.countP_append, hA, hB]
    by_cases h1 : 1 < segments.length <;> by_cases h2 : 1 < audio_clips.length <;>
      simp [h1, h2, isConcatVPart, List.countP_cons]
  · cases h : ffmpegAudioOutput audio_clips <;>
      simp [build_ffmpeg_command, ffmpegInputArgs, ffmpegGraphArgs, videoCodecArgs,
        audioMapArgs, audioCodecArgs, h, List.append_assoc]

/-- Witness for `montage_graph_shape` at the spec's scenario A (2 image
segments of 5 s at 24 fps): exactly one concatenation stage joins the two
motion stages. -/
theorem montage_graph_shape_witness :
    (ffmpegFilterParts [{ localFile := "a.png", duration := 5 },
        { localFile := "b.png", duration := 5 }] [] 24 1920 1080).countP isConcatVPart
      = 1 := by
  have h := (montage_graph_shape [{ localFile := "a.png", duration := 5 },
    { localFile := "b.png", duration := 5 }] [] "out.mp4" "1080p" 24 "/tmp"
    (by decide)).2.2.1 1920 1080
  simpa using h


/-- A per-segment audio stage is never an `amix` stage. -/
theorem isAmix_segAudioPart (video_segments : List VideoSegment)
    (segment_audio_volume : ℚ) (i : ℕ) (s : VideoSegment) :
    isAmixPart (segAudioPart video_segments segment_audio_volume i s) = false := by
  unfold segAudioPart
  split
  · rfl
  · split <;> rfl

/-- No stage of the per-segment section is an `amix` stage. -/
theorem perSeg_no_amix (video_segments : List VideoSegment)
    (segment_audio_volume : ℚ) (width height fps : ℤ) :
    ∀ a ∈ concatPerSegParts video_segments segment_audio_volume width height fps,
      isAmixPart a = false := by
  intro a ha
  unfold concatPerSegParts at ha
  obtain ⟨p, _, hp⟩ := List.mem_flatMap.mp ha
  simp only [List.mem_cons, List.mem_singleton, List.not_mem_nil, or_false] at hp
  rcases hp with rfl | rfl
  · rfl
  · exact isAmix_segAudioPart video_segments segment_audio_volume p.1 p.2

/-- No drawtext stage of the overlay chain is an `amix` stage. -/
theorem textChain_no_amix (fsExists : String → Bool)
    (text_overlays : List TextOverlay) (il ol : String) (w h : ℤ) :
    ∀ a ∈ build_text_overlay_filters fsExists text_overlays il ol w h,
      isAmixPart a = false := by
  intro a ha
  unfold build_text_overlay_filters at ha
  split at ha
  · simp at ha
  · obtain ⟨i, _, rfl⟩ := List.mem_map.mp ha
    rfl

/-- **C3.** Audio-output cardinality for both builders, counting the
aggregated segment-audio stream of concat mode as one input (as the
source aggregates it before mixing): with zero audio-bearing streams the
command carries no audio `-map` and no audio codec settings and the
graph has no `amix` stage; with exactly one, that stream's label is the
audio output and no `amix` stage exists; with two or more, exactly one
`amix` stage appears referencing all of the streams, and its rendered
text carries `duration=longest:normalize=0`. -/
theorem audio_mix_cardinality (audio_clips : List AudioClip)
    (segments : List ImageSegment) (video_segments : List VideoSegment)
    (cclips : List AudioClip) (sav : ℚ) :
    (audio_clips = [] →
      ffmpegAudioOutput audio_clips = none
      ∧ audioMapArgs (ffmpegAudioOutput audio_clips) = []
      ∧ audioCodecArgs (ffmpegAudioOutput audio_clips) = []
      ∧ ∀ fps width height : ℤ,
          (ffmpegFilterParts segments audio_clips fps width height).countP isAmixPart = 0)
    ∧ (audio_clips.length = 1 →
      ffmpegAudioOutput audio_clips = some "[a0]"
      ∧ ∀ fps width height : ℤ,
          (ffmpegFilterParts segments audio_clips fps width height).countP isAmixPart = 0)
    ∧ (2 ≤ audio_clips.length →
      ffmpegAudioOutput audio_clips = some "[outa]"
      ∧ (∀ fps width height : ℤ,
          (ffmpegFilterParts segments audio_clips fps width height).countP isAmixPart = 1)
      ∧ (∀ fps width height : ℤ,
          FilterPart.amix (audioMixInputs audio_clips.length) audio_clips.length "[outa]"
            ∈ ffmpegFilterParts segments audio_clips fps width height)
      ∧ renderPart (.amix (audioMixInputs audio_clips.length) audio_clips.length "[outa]")
          = String.join (audioMixInputs audio_clips.length) ++ "amix=inputs="
            ++ toString audio_clips.length ++ ":duration=longest:normalize=0[outa]")
    ∧ ((concatAudioInputs video_segments cclips sav).length = 0 →
      concatAudioOutput video_segments cclips sav = none)
    ∧ ((concatAudioInputs video_segments cclips sav).length = 1 →
      concatAudioOutput video_segments cclips sav
        = some ((concatAudioInputs video_segments cclips sav).headD "")
      ∧ ∀ (fsExists : String → Bool) (tov : Option (List TextOverlay)) (w h fps : ℤ),
          (concatFilterParts fsExists video_segments cclips sav tov w h fps).countP
            isAmixPart = 0)
    ∧ (2 ≤ (concatAudioInputs video_segments cclips sav).length →
      concatAudioOutput video_segments cclips sav = some "[outa]"
      ∧ (∀ (fsExists : String → Bool) (tov : Option (List TextOverlay)) (w h fps : ℤ),
          (concatFilterParts fsExists video_segments cclips sav tov w h fps).countP
            isAmixPart = 1)
      ∧ (∀ (fsExists : String → Bool) (tov : Option (List TextOverlay)) (w h fps : ℤ),
          FilterPart.amix (concatAudioInputs video_segments cclips sav)
            (concatAudioInputs video_segments cclips sav).length "[outa]"
            ∈ concatFilterParts fsExists video_segments cclips sav tov w h fps))
    ∧ (∀ (fsExists : String → Bool) (out res : String) (fps : ℤ) (td : String)
        (inc : Bool) (tov : Option (List TextOverlay)),
        build_concat_ffmpeg_command fsExists video_segments cclips out res fps td inc sav tov
          = concatInputArgs video_segments cclips td
            ++ concatGraphArgs fsExists video_segments cclips sav tov
                (resLookup res).1 (resLookup res).2 fps
            ++ ["-map", concatVideoOutput video_segments tov]
            ++ audioMapArgs (concatAudioOutput video_segments cclips sav)
            ++ videoCodecArgs
            ++ audioCodecArgs (concatAudioOutput video_segments cclips sav)
            ++ [out]) := by
  have hseg0 : ∀ fps width height : ℤ,
      (segments.enum.map fun p =>
        ffmpegSegmentPart fps width height p.1 p.2).countP isAmixPart = 0 :=
    fun fps w h => countP_map_eq_zero _ _ _ fun a => rfl
  have hconcatParts0 : ∀ (fsExists : String → Bool) (tov : Option (List TextOverlay))
      (w h fps : ℤ),
      (concatFilterParts fsExists video_segments cclips sav tov w h fps).countP isAmixPart
        = (if 1 < (concatAudioInputs video_segments cclips sav).length then 1 else 0) := by
    intro fsExists tov w h fps
    have h1 : (concatPerSegParts video_segments sav w h fps).countP isAmixPart = 0 :=
      List.countP_eq_zero.mpr fun a ha => by
        simp [perSeg_no_amix video_segments sav w h fps a ha]
    have h3 : ∀ il, (build_text_overlay_filters fsExists (tov.getD []) il "[finalv]"
        w h).countP isAmixPart = 0 :=
      fun il => List.countP_eq_zero.mpr fun a ha => by
        simp [textChain_no_amix fsExists (tov.getD []) il "[finalv]" w h a ha]
    have h5 : (cclips.enum.map fun p =>
        audioClipPart (video_segments.length + (voiceoverInputMap video_segments).length)
          ("[overlay_a" ++ toString p.1 ++ "]") p.1 p.2).countP isAmixPart = 0 :=
      countP_map_eq_zero _ _ _ fun a => rfl
    simp only [concatFilterParts, List.countP_append, h1, h5]
    by_cases hv : 1 < video_segments.length <;>
      by_cases ht : tov.getD [] = [] <;>
      by_cases hs : 1 < (segmentAudioStreams video_segments sav).length <;>
      by_cases hm : 1 < (concatAudioInputs video_segments cclips sav).length <;>
      simp [hv, ht, hs, hm, isAmixPart, List.countP_cons, h3]
  refine ⟨?_, ?_, ?_, ?_, ?_, ?_, ?_⟩
  · intro hnil
    subst hnil
    refine ⟨rfl, rfl, rfl, ?_⟩
    intro fps width height
    simp only [ffmpegFilterParts, List.countP_append, hseg0]
    by_cases h1 : 1 < segments.length <;> simp [h1, isAmixPart, List.countP_cons]
  · intro hlen
    have hne : audio_clips ≠ [] := by
      intro h
      rw [h] at hlen
      simp at hlen
    have hnlt : ¬ 1 < audio_clips.length := by omega
    refine ⟨?_, ?_⟩
    · simp [ffmpegAudioOutput, hne, hnlt]
    · intro fps width height
      have haud0 : (audio_clips.enum.map fun p =>
          audioClipPart segments.length ("[a" ++ toString p.1 ++ "]") p.1 p.2).countP
            isAmixPart = 0 :=
        countP_map_eq_zero _ _ _ fun a => rfl
      simp only [ffmpegFilterParts, List.countP_append, hseg0, haud0]
      by_cases h1 : 1 < segments.length <;> simp [h1, hnlt, isAmixPart, List.countP_cons]
  · intro hlen
    have hlt : 1 < audio_clips.length := by omega
    have hne : audio_clips ≠ [] := by
      intro h
      rw [h] at hlen
      simp at hlen
    refine ⟨?_, ?_, ?_, by simp [renderPart, String.append_assoc]⟩
    · simp [ffmpegAudioOutput, hne, hlt]
    · intro fps width height
      have haud0 : (audio_clips.enum.map fun p =>
          audioClipPart segments.length ("[a" ++ toString p.1 ++ "]") p.1 p.2).countP
            isAmixPart = 0 :=
        countP_map_eq_zero _ _ _ fun a => rfl
      simp only [ffmpegFilterParts, List.countP_append, hseg0, haud0]
      by_cases h1 : 1 < segments.length <;> simp [h1, hlt, isAmixPart, List.countP_cons]
    · intro fps width height
      simp only [ffmpegFilterParts]
      refine List.mem_append.mpr (Or.inr ?_)
      simp [hlt]
  · intro hlen
    have hnil : concatAudioInputs video_segments cclips sav = [] :=
      List.length_eq_zero.mp hlen
    simp [concatAudioOutput, hnil]
  · intro hlen
    obtain ⟨a, ha⟩ := List.length_eq_one.mp hlen
    refine ⟨?_, ?_⟩
    · simp [concatAudioOutput, ha]
    · intro fsExists tov w h fps
      rw [hconcatParts0 fsExists tov w h fps]
      simp [ha]
  · intro hlen
    have hlt : 1 < (concatAudioInputs video_segments cclips sav).length := by omega
    refine ⟨?_, ?_, ?_⟩
    · simp only [concatAudioOutput]
      rw [if_pos hlt]
    · intro fsExists tov w h fps
      rw [hconcatParts0 fsExists tov w h fps, if_pos hlt]
    · intro fsExists tov w h fps
      simp only [concatFilterParts]
      refine List.mem_append.mpr (Or.inr ?_)
      simp [hlt]
  · intro fsExists out res fps td inc tov
    cases h : concatAudioOutput video_segments cclips sav <;>
      simp [build_concat_ffmpeg_command, concatInputArgs, concatGraphArgs, videoCodecArgs,
        audioMapArgs, audioCodecArgs, h, List.append_assoc]

/-- Witness for `audio_mix_cardinality`: with two overlay clips the
montage builder emits exactly one `amix` stage and maps `[outa]`. -/
theorem audio_mix_cardinality_witness :
    ffmpegAudioOutput [{ localFile := "m1.mp3" }, { localFile := "m2.mp3" }]
      = some "[outa]" :=
  ((audio_mix_cardinality [{ localFile := "m1.mp3" }, { localFile := "m2.mp3" }]
      [] [] [] 1).2.2.1 (by decide)).1

/-- Counterexample to **C1**: at `duration_frames = 0` (a zero-duration
segment), `build_ken_burns_filter` does not raise — it returns a stage
whose zoom and pan rates are 0 (a zero-motion expression), and the
top-level `build_ffmpeg_command` graph for a zero-duration segment
contains exactly that stage. -/
theorem ken_burns_zero_duration_counterexample :
    build_ken_burns_filter 0 0 24 1 (11/10) 0 0 1920 1080
      = { segmentIndex := 0, scaledW := 3840, scaledH := 2160, zoomStart := 1,
          zoomRate := 0, centerX := 960, panPerFrameX := 0, centerY := 540,
          panPerFrameY := 0, durationFrames := 0, width := 1920, height := 1080,
          fps := 24 }
    ∧ ffmpegFilterParts
        [{ localFile := "img0.png", duration := 0,
           kenBurns := { zoomStart := 1, zoomEnd := 11/10 } }] [] 24 1920 1080
      = [FilterPart.kenBurns ⟨0, 3840, 2160, 1, 0, 960, 0, 540, 0, 0, 1920, 1080, 24⟩] := by
  constructor
  · simp only [build_ken_burns_filter, SCALE_FACTOR]
    norm_num
  · simp only [ffmpegFilterParts, ffmpegSegmentPart, build_ken_burns_filter,
      SCALE_FACTOR, List.enum, pyInt]
    norm_num

/-- **C1 (amended).** For a segment whose duration (hence frame count) is
zero or negative, the sub-generators do not raise: `build_ken_burns_filter`
silently defines the zoom and both pan rates as 0 and returns a
zero-motion stage, and `build_ffmpeg_command` includes every segment's
motion stage in its graph unchanged — so a zero-duration segment yields a
compiled command containing a zero-motion stage, not an error. -/
theorem ken_burns_nonpositive_duration_amended (i : ℕ) (d fps : ℤ)
    (zs ze px py : ℚ) (w h : ℤ) (hd : d ≤ 0) :
    ((build_ken_burns_filter i d fps zs ze px py w h).zoomRate = 0
      ∧ (build_ken_burns_filter i d fps zs ze px py w h).panPerFrameX = 0
      ∧ (build_ken_burns_filter i d fps zs ze px py w h).panPerFrameY = 0)
    ∧ (∀ (segments : List ImageSegment) (clips : List AudioClip)
        (fps2 w2 h2 : ℤ) (p : ℕ × ImageSegment), p ∈ segments.enum →
        ffmpegSegmentPart fps2 w2 h2 p.1 p.2
          ∈ ffmpegFilterParts segments clips fps2 w2 h2)
    ∧ (∀ (s : ImageSegment) (fps2 w2 h2 : ℤ) (j : ℕ),
        s.duration ≤ 0 → 0 ≤ fps2 →
        ffmpegSegmentPart fps2 w2 h2 j s
          = .kenBurns (build_ken_burns_filter j (pyInt (s.duration * (fps2 : ℚ)))
              fps2 s.kenBurns.zoomStart s.kenBurns.zoomEnd s.kenBurns.panX
              s.kenBurns.panY w2 h2)
        ∧ (build_ken_burns_filter j (pyInt (s.duration * (fps2 : ℚ))) fps2
            s.kenBurns.zoomStart s.kenBurns.zoomEnd s.kenBurns.panX
            s.kenBurns.panY w2 h2).zoomRate = 0) := by
  have hnd : ¬ 0 < d := not_lt.mpr hd
  refine ⟨?_, ?_, ?_⟩
  · simp [build_ken_burns_filter, hnd]
  · intro segments clips fps2 w2 h2 p hp
    have hmem : ffmpegSegmentPart fps2 w2 h2 p.1 p.2
        ∈ segments.enum.map (fun q => ffmpegSegmentPart fps2 w2 h2 q.1 q.2) :=
      List.mem_map.mpr ⟨p, hp, rfl⟩
    simp only [ffmpegFilterParts, List.mem_append]
    tauto
  · intro s fps2 w2 h2 j hdur hf
    have hfq : (0 : ℚ) ≤ (fps2 : ℚ) := by exact_mod_cast hf
    have hq : s.duration * (fps2 : ℚ) ≤ 0 := by nlinarith
    have hnum : (s.duration * (fps2 : ℚ)).num ≤ 0 := Rat.num_nonpos.mpr hq
    have hden : (0 : ℤ) ≤ ((s.duration * (fps2 : ℚ)).den : ℤ) := by positivity
    have hpy : pyInt (s.duration * (fps2 : ℚ)) ≤ 0 := by
      unfold pyInt
      have hnn : (0 : ℤ) ≤ (-(s.duration * (fps2 : ℚ)).num).tdiv
          ((s.duration * (fps2 : ℚ)).den : ℤ) :=
        Int.tdiv_nonneg (by omega) hden
      rw [Int.neg_tdiv] at hnn
      omega
    have hnpos : ¬ 0 < pyInt (s.duration * (fps2 : ℚ)) := not_lt.mpr hpy
    exact ⟨rfl, by simp [build_ken_burns_filter, hnpos]⟩

/-- Witness for `ken_burns_nonpositive_duration_amended` at `d = -5`. -/
theorem ken_burns_nonpositive_duration_amended_witness :
    (build_ken_burns_filter 0 (-5) 24 1 (11/10) (1/2) 0 1920 1080).zoomRate = 0 :=
  (ken_burns_nonpositive_duration_amended 0 (-5) 24 1 (11/10) (1/2) 0 1920 1080
    (by decide)).1.1
